import Mathlib

/-!
Shallow embedding of the secret-lifecycle core of the shareasecret web
application (src/internal/shareasecret/web.go).

The database is modelled as a list of rows of the `secrets` table; each
HTTP handler becomes a pure function from the request data (path value /
form fields), the database state, the current time, and — where the Go
code draws randomness or can hit an I/O fault — an explicit entropy
stream and fault flag, to the new database state and the HTTP response.

Incidental plumbing deliberately out of the model (per the handlers'
code): request logging, the `notifications` read from flash cookies when
rendering a page (reading them does not affect the secret lifecycle),
static file serving, and the `ParseForm` step (form fields are given to
the handler functions already extracted; a form-parse failure in Go
returns a bad request before any of the modelled logic runs and mutates
nothing).
-/

/-- The `deletion_reason` column. `deletionReasonUserDeleted` is the
constant the delete handler writes; the schema's other value is used by
the external TTL sweeper, which is out of scope. -/
inductive DeletionReason where
  | user_deleted
  | expired
deriving DecidableEq, Repr

/-- One row of the `secrets` table (§3 of the spec; the INSERT in
`handleCreateSecret` names the columns). `cipher_text`, `deleted_at` and
`deletion_reason` are nullable. Timestamps are Unix milliseconds. -/
structure SecretRecord where
  viewing_id : String
  management_id : String
  cipher_text : Option String
  ttl : Int
  created_at : Int
  deleted_at : Option Int
  deletion_reason : Option DeletionReason
deriving DecidableEq, Repr

/-- The body of an HTTP response produced by one of the four handlers. -/
inductive ResponseBody where
  | badRequest (msg : String)
  | internalServerError
  | redirect (location : String) (status : Nat)
  | viewSecretPage (cipherText : String)
  | manageSecretPage (managementID viewingURL deleteURL : String)
deriving DecidableEq, Repr

/-- An HTTP response: the flash cookie the handler sets (if any, as
(cookie-name, message) via `setFlash`) together with the body. -/
structure Response where
  flash : Option (String × String)
  body : ResponseBody
deriving DecidableEq, Repr

/-- Errors of the secret store, §4.2 of the spec. -/
inductive StoreError where
  | duplicateIdentifier
  | persistenceFailure
deriving DecidableEq, Repr

/-- Hex digit for a value 0..15, lowercase, as in Go's encoding/hex. -/
def hexDigitChar (n : Nat) : Char :=
  if n < 10 then Char.ofNat (48 + n) else Char.ofNat (87 + n)

/-- Go `hex.EncodeToString` on one byte: two lowercase hex digits. -/
def hexEncodeByte (b : Nat) : List Char :=
  [hexDigitChar (b / 16 % 16), hexDigitChar (b % 16)]

/-- Go `hex.EncodeToString` over a byte slice. -/
def hexEncodeToString (bs : List Nat) : String :=
  ⟨(bs.map hexEncodeByte).flatten⟩

/-- `secureID` from web.go: hex-encode 24 bytes drawn from the secure
random source. The entropy is passed explicitly (the Go code's
`rand.Read` into a 24-byte buffer); a failing entropy source is modelled
at the call sites by an exhausted entropy stream. -/
def secureID (entropy : List Nat) : String :=
  hexEncodeToString entropy

/-- `strings.Count(s, ".")` for the single-character pattern ".". -/
def countDots (s : String) : Nat :=
  (s.data.filter (fun c => c == '.')).length

/-- Value of a digit string, most significant first. -/
def digitsVal (l : List Char) : Nat :=
  l.foldl (fun a c => a * 10 + (c.toNat - 48)) 0

/-- All characters are ASCII decimal digits. -/
def allDigits (l : List Char) : Bool :=
  l.all (fun c => decide ('0' ≤ c) && decide (c ≤ '9'))

/-- Go `strconv.Atoi`: optional sign, then one or more decimal digits,
nothing else. The int64 range limit is not modelled (every value in this
development is tiny). -/
def atoi (s : String) : Option Int :=
  match s.data with
  | [] => none
  | '+' :: rest =>
      if !rest.isEmpty && allDigits rest then some (digitsVal rest) else none
  | '-' :: rest =>
      if !rest.isEmpty && allDigits rest then some (-(digitsVal rest : Int)) else none
  | l => if allDigits l then some (digitsVal l) else none

/-- Modelled from the spec: the INSERT into `secrets` runs against a
table whose schema (a migration file not present under src/) puts a hard
uniqueness constraint on the `viewing_id` column and on the
`management_id` column independently (§6: "a uniqueness constraint on
each identifier column independently"; §4.2: create "Fails with
`DuplicateIdentifier` if either identifier already exists"). On success
the new row is appended. -/
def insertSecret (db : List SecretRecord) (viewingID managementID secret : String)
    (ttl now : Int) : Except StoreError (List SecretRecord) :=
  if db.any (fun r => r.viewing_id == viewingID || r.management_id == managementID) then
    .error .duplicateIdentifier
  else
    .ok (db ++ [⟨viewingID, managementID, some secret, ttl, now, none, none⟩])

/-- `handleCreateSecret` from web.go, after a successful `ParseForm`.
`secret` and `ttlStr` are the `encryptedSecret` and `ttl` form fields.
`gen` is the stream of 24-byte entropy draws available to `secureID`;
each call to `secureID` consumes the next block, and an exhausted stream
models a failing entropy source (`rand.Read` error). `execFails` models
an underlying persistence failure of the INSERT (`db.Exec` error other
than the uniqueness violation). Returns the new table and the response. -/
def handleCreateSecret (db : List SecretRecord) (secret ttlStr : String)
    (gen : List (List Nat)) (now : Int) (execFails : Bool) :
    List SecretRecord × Response :=
  if countDots secret != 2 then
    (db, ⟨none, .badRequest "Secret format is invalid. Please try again."⟩)
  else
    match atoi ttlStr with
    | none => (db, ⟨none, .badRequest "Unable to parse the TTL (time to live) for the secret."⟩)
    | some ttl =>
      match gen with
      | [] => (db, ⟨none, .internalServerError⟩)
      | [_] => (db, ⟨none, .internalServerError⟩)
      | e1 :: e2 :: _ =>
        let viewingID := secureID e1
        let managementID := secureID e2
        if execFails then
          (db, ⟨none, .internalServerError⟩)
        else
          match insertSecret db viewingID managementID secret ttl now with
          | .error _ => (db, ⟨none, .internalServerError⟩)
          | .ok db2 =>
            (db2, ⟨none, .redirect ("/manage-secret/" ++ managementID) 201⟩)

/-- Modelled from the spec: §4.3's create operation as the spec words it,
"retrying generation only on `DuplicateIdentifier` from the store
(bounded retry, e.g. up to a small fixed count, then fail as
`InternalError`)". `retries` is the number of further attempts allowed
after the first; each attempt draws the next two blocks of `gen`. Written
to be compared with `handleCreateSecret`, the code's actual behaviour. -/
def createSecretRetrySpec (retries : Nat) (db : List SecretRecord)
    (secret ttlStr : String) (gen : List (List Nat)) (now : Int) :
    List SecretRecord × Response :=
  if countDots secret != 2 then
    (db, ⟨none, .badRequest "Secret format is invalid. Please try again."⟩)
  else
    match atoi ttlStr with
    | none => (db, ⟨none, .badRequest "Unable to parse the TTL (time to live) for the secret."⟩)
    | some ttl => attempt ttl retries gen
where
  attempt : Int → Nat → List (List Nat) → List SecretRecord × Response
  | _, _, [] => (db, ⟨none, .internalServerError⟩)
  | _, _, [_] => (db, ⟨none, .internalServerError⟩)
  | ttl, n, e1 :: e2 :: rest =>
      match insertSecret db (secureID e1) (secureID e2) secret ttl now with
      | .ok db2 => (db2, ⟨none, .redirect ("/manage-secret/" ++ secureID e2) 201⟩)
      | .error .duplicateIdentifier =>
          match n with
          | 0 => (db, ⟨none, .internalServerError⟩)
          | n' + 1 => attempt ttl n' rest
      | .error .persistenceFailure => (db, ⟨none, .internalServerError⟩)

/-- `handleGetSecret` from web.go. The SELECT filters on
`viewing_id = ? AND deleted_at IS NULL` and `QueryRow` yields the first
matching row or `sql.ErrNoRows`. `queryFails` models a persistence
failure of the query; Go's `Scan` of a NULL `cipher_text` into a string
is also a non-NoRows error, hence the /oops branch on a none
cipher_text. Status 303 is `http.StatusSeeOther`. -/
def handleGetSecret (db : List SecretRecord) (viewingID : String)
    (queryFails : Bool) : Response :=
  if queryFails then
    ⟨none, .redirect "/oops" 303⟩
  else
    match db.find? (fun r => r.viewing_id == viewingID && r.deleted_at.isNone) with
    | none => ⟨some ("flash_err", "Secret does not exist or has been deleted."),
               .redirect "/" 303⟩
    | some r =>
      match r.cipher_text with
      | some ct => ⟨none, .viewSecretPage ct⟩
      | none => ⟨none, .redirect "/oops" 303⟩

/-- `handleManageSecret` from web.go. The SELECT reads only `viewing_id`,
filtered on `management_id = ? AND deleted_at IS NULL`; the rendered page
receives the management ID, the viewing URL and the delete URL. -/
def handleManageSecret (baseURL : String) (db : List SecretRecord)
    (managementID : String) (queryFails : Bool) : Response :=
  if queryFails then
    ⟨none, .redirect "/oops" 303⟩
  else
    match db.find? (fun r => r.management_id == managementID && r.deleted_at.isNone) with
    | none => ⟨some ("flash_err", "Secret does not exist or has been deleted."),
               .redirect "/" 303⟩
    | some r =>
      ⟨none, .manageSecretPage managementID
        (baseURL ++ "/secret/" ++ r.viewing_id)
        (baseURL ++ "/manage-secret/" ++ managementID ++ "/delete")⟩

/-- `handleDeleteSecret` from web.go: a single
`UPDATE secrets SET deleted_at = ?, deletion_reason = ?, cipher_text = NULL
WHERE management_id = ?` (note: no `deleted_at IS NULL` guard), then a
success flash and redirect; on an `Exec` error (`execFails`), a redirect
to /oops with no state change. -/
def handleDeleteSecret (db : List SecretRecord) (managementID : String)
    (now : Int) (execFails : Bool) : List SecretRecord × Response :=
  if execFails then
    (db, ⟨none, .redirect "/oops" 303⟩)
  else
    (db.map (fun r =>
        if r.management_id == managementID then
          { r with deleted_at := some now,
                   deletion_reason := some .user_deleted,
                   cipher_text := none }
        else r),
     ⟨some ("flash_success", "Secret successfully deleted."), .redirect "/" 303⟩)

/-- The uniform not-found response shared by the view and manage paths. -/
def notFoundResponse : Response :=
  ⟨some ("flash_err", "Secret does not exist or has been deleted."), .redirect "/" 303⟩

/-- C6: for every management identifier — including one that is
nonexistent or already deleted — the delete operation reports success
(the success flash notification and the redirect to "/"), with no
not-found distinction; an underlying persistence failure is the only
error outcome on the delete path, and it leaves the state unchanged. -/
theorem C6_delete_uniform_success (db : List SecretRecord) (m : String) (now : Int) :
    (handleDeleteSecret db m now false).2 =
      ⟨some ("flash_success", "Secret successfully deleted."), .redirect "/" 303⟩ ∧
    handleDeleteSecret db m now true = (db, ⟨none, .redirect "/oops" 303⟩) :=
  ⟨rfl, rfl⟩

/-- C5 counterexample: deleting the same management identifier twice, at
times 1 and then 2, does change the stored state after the first delete:
the UPDATE has no `deleted_at IS NULL` guard, so the second invocation
overwrites `deleted_at` (1 becomes 2). -/
theorem C5_counterexample :
    (handleDeleteSecret
        (handleDeleteSecret [⟨"v", "m", some "a.b.c", 60, 0, none, none⟩] "m" 1 false).1
        "m" 2 false).1 ≠
      (handleDeleteSecret [⟨"v", "m", some "a.b.c", 60, 0, none, none⟩] "m" 1 false).1 := by
  decide

/-- C5 amended: invoking delete twice yields the success outcome both
times, and the second invocation is equivalent to a single delete at the
second invocation's time — so `cipher_text` and `deletion_reason` keep
their values, while `deleted_at` is re-applied with the new timestamp
(the state is unchanged exactly when both invocations observe the same
time). -/
theorem C5_delete_twice (db : List SecretRecord) (m : String) (t1 t2 : Int) :
    (handleDeleteSecret db m t1 false).2 =
      ⟨some ("flash_success", "Secret successfully deleted."), .redirect "/" 303⟩ ∧
    (handleDeleteSecret (handleDeleteSecret db m t1 false).1 m t2 false).2 =
      ⟨some ("flash_success", "Secret successfully deleted."), .redirect "/" 303⟩ ∧
    (handleDeleteSecret (handleDeleteSecret db m t1 false).1 m t2 false).1 =
      (handleDeleteSecret db m t2 false).1 := by
  refine ⟨rfl, rfl, ?_⟩
  simp only [handleDeleteSecret, Bool.false_eq_true, if_false, List.map_map]
  apply List.map_congr_left
  intro r _
  by_cases h : r.management_id == m
  · simp [Function.comp, h]
  · simp [Function.comp, h]

/-- C10: the envelope validation counts '.' occurrences and does not
require non-empty segments: both ".." and "a..b" pass validation and a
record with that exact string as `cipher_text` is persisted. -/
theorem C10_empty_segments_accepted :
    handleCreateSecret [] ".." "3600" [List.replicate 24 0, List.replicate 24 1] 0 false =
      ([⟨"000000000000000000000000000000000000000000000000",
         "010101010101010101010101010101010101010101010101",
         some "..", 3600, 0, none, none⟩],
       ⟨none, .redirect "/manage-secret/010101010101010101010101010101010101010101010101" 201⟩) ∧
    handleCreateSecret [] "a..b" "3600" [List.replicate 24 0, List.replicate 24 1] 0 false =
      ([⟨"000000000000000000000000000000000000000000000000",
         "010101010101010101010101010101010101010101010101",
         some "a..b", 3600, 0, none, none⟩],
       ⟨none, .redirect "/manage-secret/010101010101010101010101010101010101010101010101" 201⟩) := by
  constructor <;> decide

/-- Helper: a list search skips a prefix on which the predicate fails. -/
theorem find?_append_of_none {p : SecretRecord → Bool} {db : List SecretRecord}
    (h : ∀ r ∈ db, ¬ p r = true) (l2 : List SecretRecord) :
    (db ++ l2).find? p = l2.find? p := by
  rw [List.find?_append, List.find?_eq_none.mpr h, Option.none_or]

/-- Helper: a successful creation appends exactly the INSERTed row and
redirects to the management page. -/
theorem handleCreateSecret_success (db : List SecretRecord) (sec ttlStr : String)
    (e1 e2 : List Nat) (rest : List (List Nat)) (t now : Int)
    (hsec : countDots sec = 2) (httl : atoi ttlStr = some t)
    (hfresh : ∀ r ∈ db, r.viewing_id ≠ secureID e1 ∧ r.management_id ≠ secureID e2) :
    handleCreateSecret db sec ttlStr (e1 :: e2 :: rest) now false =
      (db ++ [⟨secureID e1, secureID e2, some sec, t, now, none, none⟩],
       ⟨none, .redirect ("/manage-secret/" ++ secureID e2) 201⟩) := by
  have hany : db.any
      (fun r => r.viewing_id == secureID e1 || r.management_id == secureID e2) = false := by
    rw [List.any_eq_false]
    intro r hr
    simp [(hfresh r hr).1, (hfresh r hr).2]
  simp only [handleCreateSecret, hsec, httl, bne_self_eq_false, Bool.false_eq_true,
    if_false, insertSecret, hany]

/-- Helper: the view path answers with the uniform not-found response
whenever every row carrying the viewing identifier is soft-deleted (which
includes the case that no row carries it at all). -/
theorem view_not_found (db : List SecretRecord) (v : String)
    (h : ∀ r ∈ db, r.viewing_id = v → r.deleted_at ≠ none) :
    handleGetSecret db v false = notFoundResponse := by
  have hfind : db.find? (fun r => r.viewing_id == v && r.deleted_at.isNone) = none := by
    rw [List.find?_eq_none]
    intro r hr
    simp only [Bool.and_eq_true, beq_iff_eq, Option.isNone_iff_eq_none, not_and]
    exact h r hr
  simp only [handleGetSecret, Bool.false_eq_true, if_false, hfind]
  rfl

/-- C3: the manage operation's output never contains the secret's
ciphertext, on every code path: its response is unchanged if every
`cipher_text` in the store is scrubbed (so it cannot carry ciphertext
information), and it is always either the /oops redirect, the uniform
not-found response, or the manage page built solely from the management
identifier, the resolved viewing URL, and the delete-action URL. -/
theorem C3_manage_never_yields_ciphertext (b : String) (db : List SecretRecord)
    (m : String) (qf : Bool) :
    handleManageSecret b db m qf =
      handleManageSecret b (db.map (fun r => { r with cipher_text := none })) m qf ∧
    (handleManageSecret b db m qf = ⟨none, .redirect "/oops" 303⟩ ∨
     handleManageSecret b db m qf = notFoundResponse ∨
     ∃ r ∈ db, handleManageSecret b db m qf =
       ⟨none, .manageSecretPage m (b ++ "/secret/" ++ r.viewing_id)
         (b ++ "/manage-secret/" ++ m ++ "/delete")⟩) := by
  constructor
  · cases qf with
    | true => rfl
    | false =>
        simp only [handleManageSecret, Bool.false_eq_true, if_false]
        rw [List.find?_map]
        have hcomp : ((fun r : SecretRecord => r.management_id == m && r.deleted_at.isNone) ∘
            (fun r : SecretRecord => { r with cipher_text := none })) =
            (fun r : SecretRecord => r.management_id == m && r.deleted_at.isNone) := rfl
        rw [hcomp]
        cases db.find? (fun r => r.management_id == m && r.deleted_at.isNone) <;> rfl
  · cases qf with
    | true => exact Or.inl rfl
    | false =>
        simp only [handleManageSecret, Bool.false_eq_true, if_false]
        cases hfind : db.find? (fun r => r.management_id == m && r.deleted_at.isNone) with
        | none => exact Or.inr (Or.inl rfl)
        | some r => exact Or.inr (Or.inr ⟨r, List.mem_of_find?_eq_some hfind, rfl⟩)

/-- Helper: the delete handler's state effect, spelled out. -/
theorem handleDeleteSecret_state (db : List SecretRecord) (m : String) (td : Int) :
    (handleDeleteSecret db m td false).1 =
      db.map (fun r => if r.management_id == m then
        { r with deleted_at := some td, deletion_reason := some DeletionReason.user_deleted,
                 cipher_text := none } else r) := rfl

/-- Helper: after deleting via management identifier `m`, no active row
carries viewing identifier `v`, provided every row carrying `v` belonged
to the secret managed by `m`. -/
theorem deleted_rows_ineligible (db : List SecretRecord) (m v : String) (td : Int)
    (h : ∀ r ∈ db, r.viewing_id = v → r.management_id = m) :
    ∀ r ∈ db.map (fun r => if r.management_id == m then
        { r with deleted_at := some td, deletion_reason := some DeletionReason.user_deleted,
                 cipher_text := none } else r),
      r.viewing_id = v → r.deleted_at ≠ none := by
  intro r hr hv
  obtain ⟨r0, hr0, rfl⟩ := List.mem_map.mp hr
  by_cases hm : r0.management_id == m
  · rw [if_pos hm] at hv ⊢
    simp
  · rw [if_neg hm] at hv ⊢
    exact absurd (h r0 hr0 hv) (by simpa using hm)

/-- C1: viewing an identifier that was created and then deleted, and
viewing it against the original state where it never existed, produce the
same response on every path (and, absent a query fault, that response is
the uniform "does not exist or has been deleted" notification with the
redirect to "/"). -/
theorem C1_existence_hiding (db : List SecretRecord) (sec ttlStr : String)
    (e1 e2 : List Nat) (t tc td : Int) (qf : Bool)
    (hsec : countDots sec = 2) (httl : atoi ttlStr = some t)
    (hfresh : ∀ r ∈ db, r.viewing_id ≠ secureID e1 ∧ r.management_id ≠ secureID e2) :
    handleGetSecret
        (handleDeleteSecret (handleCreateSecret db sec ttlStr [e1, e2] tc false).1
          (secureID e2) td false).1
        (secureID e1) qf
      = handleGetSecret db (secureID e1) qf ∧
    handleGetSecret db (secureID e1) false = notFoundResponse := by
  have hnever : ∀ r ∈ db, r.viewing_id = secureID e1 → r.deleted_at ≠ none :=
    fun r hr hv => absurd hv (hfresh r hr).1
  refine ⟨?_, view_not_found db _ hnever⟩
  cases qf with
  | true => rfl
  | false =>
      have hstate : (handleCreateSecret db sec ttlStr [e1, e2] tc false).1 =
          db ++ [⟨secureID e1, secureID e2, some sec, t, tc, none, none⟩] := by
        rw [handleCreateSecret_success db sec ttlStr e1 e2 [] t tc hsec httl hfresh]
      rw [hstate, handleDeleteSecret_state, view_not_found db _ hnever,
        view_not_found _ _ (deleted_rows_ineligible _ _ _ _ ?_)]
      intro r hr hv
      rcases List.mem_append.mp hr with h0 | h0
      · exact absurd hv (hfresh r h0).1
      · rw [List.mem_singleton] at h0
        subst h0
        rfl

/-- C2: after creating a secret and deleting it via its management
identifier, a view with the corresponding viewing identifier answers the
uniform not-found response, while the row itself is retained with its
`cipher_text` field set to null (and `deleted_at` set to the deletion
time) — the ciphertext is discarded, not hidden behind a flag. -/
theorem C2_deleted_secret_gone (db : List SecretRecord) (sec ttlStr : String)
    (e1 e2 : List Nat) (t tc td : Int)
    (hsec : countDots sec = 2) (httl : atoi ttlStr = some t)
    (hfresh : ∀ r ∈ db, r.viewing_id ≠ secureID e1 ∧ r.management_id ≠ secureID e2) :
    handleGetSecret
        (handleDeleteSecret (handleCreateSecret db sec ttlStr [e1, e2] tc false).1
          (secureID e2) td false).1 (secureID e1) false = notFoundResponse ∧
    (∃ r ∈ (handleDeleteSecret (handleCreateSecret db sec ttlStr [e1, e2] tc false).1
        (secureID e2) td false).1, r.viewing_id = secureID e1) ∧
    (∀ r ∈ (handleDeleteSecret (handleCreateSecret db sec ttlStr [e1, e2] tc false).1
        (secureID e2) td false).1, r.viewing_id = secureID e1 →
      r.cipher_text = none ∧ r.deleted_at = some td) := by
  have hstate : (handleCreateSecret db sec ttlStr [e1, e2] tc false).1 =
      db ++ [⟨secureID e1, secureID e2, some sec, t, tc, none, none⟩] := by
    rw [handleCreateSecret_success db sec ttlStr e1 e2 [] t tc hsec httl hfresh]
  rw [hstate, handleDeleteSecret_state]
  refine ⟨?_, ?_, ?_⟩
  · rw [view_not_found _ _ (deleted_rows_ineligible _ _ _ _ ?_)]
    intro r hr hv
    rcases List.mem_append.mp hr with h0 | h0
    · exact absurd hv (hfresh r h0).1
    · rw [List.mem_singleton] at h0
      subst h0
      rfl
  · refine ⟨_, List.mem_map_of_mem _
      (List.mem_append_right db (List.mem_singleton_self _)), ?_⟩
    simp
  · intro r hr hv
    obtain ⟨r0, hr0, rfl⟩ := List.mem_map.mp hr
    rcases List.mem_append.mp hr0 with h0 | h0
    · by_cases hm : r0.management_id == secureID e2
      · rw [if_pos hm] at hv ⊢
        exact absurd hv (hfresh r0 h0).1
      · rw [if_neg hm] at hv ⊢
        exact absurd hv (hfresh r0 h0).1
    · rw [List.mem_singleton] at h0
      subst h0
      rw [if_pos (by simp)]
      exact ⟨rfl, rfl⟩

/-- C1 witness: the existence-hiding theorem at a concrete instance. -/
theorem C1_witness :
    handleGetSecret
        (handleDeleteSecret (handleCreateSecret [] "a.b.c" "60" [[0], [1]] 5 false).1
          (secureID [1]) 9 false).1
        (secureID [0]) false
      = handleGetSecret [] (secureID [0]) false ∧
    handleGetSecret [] (secureID [0]) false = notFoundResponse :=
  C1_existence_hiding [] "a.b.c" "60" [0] [1] 60 5 9 false (by decide) (by decide)
    (by simp)

/-- C2 witness: the delete-discards-ciphertext theorem at a concrete
instance. -/
theorem C2_witness :
    handleGetSecret
        (handleDeleteSecret (handleCreateSecret [] "a.b.c" "60" [[0], [1]] 5 false).1
          (secureID [1]) 9 false).1 (secureID [0]) false = notFoundResponse ∧
    (∃ r ∈ (handleDeleteSecret (handleCreateSecret [] "a.b.c" "60" [[0], [1]] 5 false).1
        (secureID [1]) 9 false).1, r.viewing_id = secureID [0]) ∧
    (∀ r ∈ (handleDeleteSecret (handleCreateSecret [] "a.b.c" "60" [[0], [1]] 5 false).1
        (secureID [1]) 9 false).1, r.viewing_id = secureID [0] →
      r.cipher_text = none ∧ r.deleted_at = some 9) :=
  C2_deleted_secret_gone [] "a.b.c" "60" [0] [1] 60 5 9 (by decide) (by decide)
    (by simp)

/-- C8: creation accepts an envelope exactly when it contains exactly two
'.' separator characters (three dot-separated segments): the
format-invalid client error is answered iff the count differs from two,
and in that case the request is rejected with no state mutation. -/
theorem C8_envelope_validation (db : List SecretRecord) (sec ttlStr : String)
    (gen : List (List Nat)) (now : Int) (ef : Bool) :
    ((handleCreateSecret db sec ttlStr gen now ef).2 =
        ⟨none, .badRequest "Secret format is invalid. Please try again."⟩ ↔
      countDots sec ≠ 2) ∧
    (countDots sec ≠ 2 → handleCreateSecret db sec ttlStr gen now ef =
      (db, ⟨none, .badRequest "Secret format is invalid. Please try again."⟩)) := by
  by_cases h : countDots sec = 2
  · have hbody : (handleCreateSecret db sec ttlStr gen now ef).2 ≠
        ⟨none, .badRequest "Secret format is invalid. Please try again."⟩ := by
      simp only [handleCreateSecret, h, bne_self_eq_false, Bool.false_eq_true, if_false]
      split
      · simp
      · split
        · simp
        · simp
        · split
          · simp
          · split
            · simp
            · simp
    exact ⟨⟨fun hb => absurd hb hbody, fun hne => absurd h hne⟩, fun hne => absurd h hne⟩
  · have hcond : (countDots sec != 2) = true := by simpa using h
    have hres : handleCreateSecret db sec ttlStr gen now ef =
        (db, ⟨none, .badRequest "Secret format is invalid. Please try again."⟩) := by
      simp only [handleCreateSecret, hcond, if_true]
    exact ⟨⟨fun _ => h, fun _ => congrArg Prod.snd hres⟩, fun _ => hres⟩

/-- C8 witness: the envelope "abcdef" (no separators) is rejected with
the format client error and the state is unchanged. -/
theorem C8_witness :
    handleCreateSecret [] "abcdef" "3600" [[0], [1]] 0 false =
      ([], ⟨none, .badRequest "Secret format is invalid. Please try again."⟩) :=
  (C8_envelope_validation [] "abcdef" "3600" [[0], [1]] 0 false).2 (by decide)

/-- C7 counterexample: there is no accepted set of TTL durations
(durations being non-negative) outside of which creation fails with a
client error and no persisted record — the request with ttl "-1" parses
to the integer -1, which lies outside every such set, yet creation
succeeds and persists a record. -/
theorem C7_counterexample :
    ¬ ∃ S : Finset Int, (∀ t ∈ S, 0 ≤ t) ∧
      ∀ (db : List SecretRecord) (sec ttlStr : String) (gen : List (List Nat))
        (now t : Int), atoi ttlStr = some t → t ∉ S → countDots sec = 2 →
        (∃ msg, (handleCreateSecret db sec ttlStr gen now false).2.body =
          ResponseBody.badRequest msg) ∧
        (handleCreateSecret db sec ttlStr gen now false).1 = db := by
  rintro ⟨S, hpos, hclaim⟩
  have hnotin : (-1 : Int) ∉ S := fun hmem => absurd (hpos _ hmem) (by norm_num)
  obtain ⟨msg, hmsg⟩ :=
    (hclaim [] "a.b.c" "-1" [[0], [1]] 0 (-1) (by decide) hnotin (by decide)).1
  rw [show (handleCreateSecret [] "a.b.c" "-1" [[0], [1]] 0 false).2.body =
      ResponseBody.redirect ("/manage-secret/" ++ secureID [1]) 201 from by decide] at hmsg
  exact ResponseBody.noConfusion hmsg

/-- C7 amended: creation validates the TTL only by integer parsing: the
TTL client error is answered iff the ttl field fails to parse as an
integer, in which case nothing is persisted; every ttl that parses —
including zero and negative values — passes TTL validation, and with
fresh identifiers the record is persisted with that integer as its ttl. -/
theorem C7_ttl_only_parsed (db : List SecretRecord) (sec ttlStr : String)
    (gen : List (List Nat)) (now : Int) (ef : Bool)
    (hsec : countDots sec = 2) :
    ((handleCreateSecret db sec ttlStr gen now ef).2 =
        ⟨none, .badRequest "Unable to parse the TTL (time to live) for the secret."⟩ ↔
      atoi ttlStr = none) ∧
    (atoi ttlStr = none → handleCreateSecret db sec ttlStr gen now ef =
      (db, ⟨none, .badRequest "Unable to parse the TTL (time to live) for the secret."⟩)) ∧
    (∀ (t : Int) (e1 e2 : List Nat) (rest : List (List Nat)),
      atoi ttlStr = some t → gen = e1 :: e2 :: rest →
      (∀ r ∈ db, r.viewing_id ≠ secureID e1 ∧ r.management_id ≠ secureID e2) →
      handleCreateSecret db sec ttlStr gen now false =
        (db ++ [⟨secureID e1, secureID e2, some sec, t, now, none, none⟩],
         ⟨none, .redirect ("/manage-secret/" ++ secureID e2) 201⟩)) := by
  refine ⟨?_, ?_, ?_⟩
  · cases hatoi : atoi ttlStr with
    | none =>
        simp only [handleCreateSecret, hsec, bne_self_eq_false, Bool.false_eq_true,
          if_false, hatoi]
    | some t =>
        have hbody : (handleCreateSecret db sec ttlStr gen now ef).2 ≠
            ⟨none, .badRequest "Unable to parse the TTL (time to live) for the secret."⟩ := by
          simp only [handleCreateSecret, hsec, bne_self_eq_false, Bool.false_eq_true,
            if_false, hatoi]
          split
          · simp
          · simp
          · split
            · simp
            · split
              · simp
              · simp
        simp [hbody, hatoi]
  · intro hatoi
    simp only [handleCreateSecret, hsec, bne_self_eq_false, Bool.false_eq_true,
      if_false, hatoi]
  · intro t e1 e2 rest hatoi hgen hfresh
    subst hgen
    exact handleCreateSecret_success db sec ttlStr e1 e2 rest t now hsec hatoi hfresh

/-- C7 witness: a creation request with ttl "-1" — an integer outside any
set of accepted non-negative durations — is accepted and persisted with
ttl -1. -/
theorem C7_witness :
    handleCreateSecret [] "a.b.c" "-1" [[0], [1]] 0 false =
      ([⟨secureID [0], secureID [1], some "a.b.c", -1, 0, none, none⟩],
       ⟨none, .redirect ("/manage-secret/" ++ secureID [1]) 201⟩) :=
  (C7_ttl_only_parsed [] "a.b.c" "-1" [[0], [1]] 0 false (by decide)).2.2 (-1) [0] [1] []
    (by decide) rfl (by simp)

/-- C9 amended: creation performs no retry at all: its outcome never
depends on entropy beyond the first two draws, and a duplicate-identifier
insert failure immediately yields the internal error with no state
change; no condition triggers a retry. -/
theorem C9_no_retry (db : List SecretRecord) (sec ttlStr : String)
    (e1 e2 : List Nat) (rest : List (List Nat)) (now : Int) (ef : Bool) :
    handleCreateSecret db sec ttlStr (e1 :: e2 :: rest) now ef =
      handleCreateSecret db sec ttlStr [e1, e2] now ef ∧
    (countDots sec = 2 → ∀ t, atoi ttlStr = some t →
      db.any (fun r => r.viewing_id == secureID e1 ||
        r.management_id == secureID e2) = true →
      handleCreateSecret db sec ttlStr (e1 :: e2 :: rest) now false =
        (db, ⟨none, .internalServerError⟩)) := by
  constructor
  · unfold handleCreateSecret
    split
    · rfl
    · split
      · rfl
      · rfl
  · intro hsec t hatoi hdup
    simp only [handleCreateSecret, hsec, bne_self_eq_false, Bool.false_eq_true,
      if_false, hatoi, insertSecret, hdup, if_true]

/-- C9 witness: with the first generated viewing identifier colliding
with an existing row and two fresh entropy draws still available, the
create operation answers the internal error without consuming them. -/
theorem C9_witness :
    handleCreateSecret [⟨secureID [0], "m", some "x.y.z", 60, 0, none, none⟩]
        "a.b.c" "60" [[0], [1], [2], [3]] 0 false =
      ([⟨secureID [0], "m", some "x.y.z", 60, 0, none, none⟩],
       ⟨none, .internalServerError⟩) :=
  (C9_no_retry [⟨secureID [0], "m", some "x.y.z", 60, 0, none, none⟩]
      "a.b.c" "60" [0] [1] [[2], [3]] 0 false).2 (by decide) 60 (by decide) (by decide)

/-- C9 counterexample: on a duplicate-identifier collision with fresh
entropy still available, the code fails immediately with the internal
error, while the spec's bounded-retry create (even with a single retry
allowed) succeeds on the same input — so no retry on DuplicateIdentifier
is performed. -/
theorem C9_counterexample :
    handleCreateSecret [⟨secureID [0], "m", some "x.y.z", 60, 0, none, none⟩]
        "a.b.c" "60" [[0], [1], [2], [3]] 0 false =
      ([⟨secureID [0], "m", some "x.y.z", 60, 0, none, none⟩],
       ⟨none, .internalServerError⟩) ∧
    createSecretRetrySpec 1 [⟨secureID [0], "m", some "x.y.z", 60, 0, none, none⟩]
        "a.b.c" "60" [[0], [1], [2], [3]] 0 =
      ([⟨secureID [0], "m", some "x.y.z", 60, 0, none, none⟩,
        ⟨secureID [2], secureID [3], some "a.b.c", 60, 0, none, none⟩],
       ⟨none, .redirect ("/manage-secret/" ++ secureID [3]) 201⟩) := by
  constructor <;> decide

/-- C4: round trip — creating a secret with envelope "abc.def.ghi" and
ttl 3600 (against any state fresh for the two generated identifiers)
succeeds, redirecting to a management identifier of the expected format
(48 lowercase hex characters); managing with that identifier resolves
the viewing URL and the delete URL; and viewing with that URL's viewing
identifier returns exactly "abc.def.ghi". -/
theorem C4_round_trip (db : List SecretRecord) (baseURL : String) (tc : Int)
    (hfresh : ∀ r ∈ db, r.viewing_id ≠ secureID (List.replicate 24 171) ∧
      r.management_id ≠ secureID (List.replicate 24 205)) :
    handleCreateSecret db "abc.def.ghi" "3600"
        [List.replicate 24 171, List.replicate 24 205] tc false =
      (db ++ [⟨secureID (List.replicate 24 171), secureID (List.replicate 24 205),
        some "abc.def.ghi", 3600, tc, none, none⟩],
       ⟨none, .redirect ("/manage-secret/" ++ secureID (List.replicate 24 205)) 201⟩) ∧
    (secureID (List.replicate 24 205)).length = 48 ∧
    (secureID (List.replicate 24 205)).data.all (fun c =>
      (decide ('0' ≤ c) && decide (c ≤ '9')) || (decide ('a' ≤ c) && decide (c ≤ 'f')))
      = true ∧
    handleManageSecret baseURL
        (handleCreateSecret db "abc.def.ghi" "3600"
          [List.replicate 24 171, List.replicate 24 205] tc false).1
        (secureID (List.replicate 24 205)) false =
      ⟨none, .manageSecretPage (secureID (List.replicate 24 205))
        (baseURL ++ "/secret/" ++ secureID (List.replicate 24 171))
        (baseURL ++ "/manage-secret/" ++ secureID (List.replicate 24 205) ++ "/delete")⟩ ∧
    handleGetSecret
        (handleCreateSecret db "abc.def.ghi" "3600"
          [List.replicate 24 171, List.replicate 24 205] tc false).1
        (secureID (List.replicate 24 171)) false =
      ⟨none, .viewSecretPage "abc.def.ghi"⟩ := by
  have hcreate := handleCreateSecret_success db "abc.def.ghi" "3600"
    (List.replicate 24 171) (List.replicate 24 205) [] 3600 tc (by decide) (by decide)
    hfresh
  have hstate : (handleCreateSecret db "abc.def.ghi" "3600"
      [List.replicate 24 171, List.replicate 24 205] tc false).1 =
      db ++ [⟨secureID (List.replicate 24 171), secureID (List.replicate 24 205),
        some "abc.def.ghi", 3600, tc, none, none⟩] := by
    rw [hcreate]
  refine ⟨hcreate, by decide, by decide, ?_, ?_⟩
  · rw [hstate]
    simp only [handleManageSecret, Bool.false_eq_true, if_false]
    rw [find?_append_of_none (fun r hr => by
        simp only [Bool.and_eq_true, beq_iff_eq, not_and]
        exact fun h _ => (hfresh r hr).2 h),
      List.find?_cons_of_pos _ (by simp)]
  · rw [hstate]
    simp only [handleGetSecret, Bool.false_eq_true, if_false]
    rw [find?_append_of_none (fun r hr => by
        simp only [Bool.and_eq_true, beq_iff_eq, not_and]
        exact fun h _ => (hfresh r hr).1 h),
      List.find?_cons_of_pos _ (by simp)]

/-- C4 witness: the round trip at the empty state with a concrete base
URL. -/
theorem C4_witness :
    handleCreateSecret [] "abc.def.ghi" "3600"
        [List.replicate 24 171, List.replicate 24 205] 0 false =
      ([⟨secureID (List.replicate 24 171), secureID (List.replicate 24 205),
        some "abc.def.ghi", 3600, 0, none, none⟩],
       ⟨none, .redirect ("/manage-secret/" ++ secureID (List.replicate 24 205)) 201⟩) ∧
    (secureID (List.replicate 24 205)).length = 48 ∧
    (secureID (List.replicate 24 205)).data.all (fun c =>
      (decide ('0' ≤ c) && decide (c ≤ '9')) || (decide ('a' ≤ c) && decide (c ≤ 'f')))
      = true ∧
    handleManageSecret "https://example.com"
        (handleCreateSecret [] "abc.def.ghi" "3600"
          [List.replicate 24 171, List.replicate 24 205] 0 false).1
        (secureID (List.replicate 24 205)) false =
      ⟨none, .manageSecretPage (secureID (List.replicate 24 205))
        ("https://example.com" ++ "/secret/" ++ secureID (List.replicate 24 171))
        ("https://example.com" ++ "/manage-secret/" ++ secureID (List.replicate 24 205)
          ++ "/delete")⟩ ∧
    handleGetSecret
        (handleCreateSecret [] "abc.def.ghi" "3600"
          [List.replicate 24 171, List.replicate 24 205] 0 false).1
        (secureID (List.replicate 24 171)) false =
      ⟨none, .viewSecretPage "abc.def.ghi"⟩ :=
  C4_round_trip [] "https://example.com" 0 (by simp)
